import Mathlib

/-!
# Verification of the FluentPro course-generation workflow engine

This file is a shallow embedding of the generation workflow engine of the
fluentpro backend, translated from `course/course_generation_workflow.py`
(the LangGraph pipeline: orchestrator → parallel_workers ⇄ evaluator →
worker2 → aggregator) and from the segmentation helpers of
`course/langgraph_rag.py` (`_create_fallback_response`, `merge_chunk_results`).

LLM invocations are modelled as oracle functions passed in as parameters
(returning `Except String result`, mirroring "structured object or raises").
Thread-pool fan-out is modelled by an arbitrary completion-order function
(`sched`), quantified over in the theorems; `time.sleep` backoff delays are
dropped (they do not affect data flow).  Python dicts are modelled as
insertion-ordered association lists with in-place update on existing keys,
which is exactly CPython dict semantics.  Python exceptions that escape a
LangGraph node abort the whole `app.invoke`, which the embedding renders as
`Except RunError`: `ThreadPoolExecutor(max_workers=0)` raising `ValueError`
is `RunError.poolEmpty`, a list-index failure is `RunError.indexError`, and
the `eval_dict` UnboundLocalError in `evaluator_node` is
`RunError.unboundLocal`.
-/

/-- `TopicDescriptionPair`: one topic with its description (a unit of work). -/
structure TopicPair where
  topic : String
  description : String
deriving Repr, DecidableEq

/-- `LessonIntro`: a lesson stub produced by worker 1. -/
structure LessonIntro where
  lesson_number : Nat
  lesson_title : String
  lesson_introduction : String
deriving Repr, DecidableEq

/-- `CourseWithLessons`: the structured output of one worker-1 generation call. -/
structure GenResult where
  course_name : String
  course_description : String
  lessons : List LessonIntro
deriving Repr, DecidableEq

/-- One entry of `state.worker_outputs`.  The Python value is a dict that
either has the payload keys (success) or an `error` key (failure marker);
`topic_pair` is absent from the error dict, hence the `Option`. -/
structure WorkerOutput where
  index : Nat
  topic_pair : Option TopicPair
  course_name : String
  course_description : String
  lessons : List LessonIntro
  error : Option String
deriving Repr, DecidableEq

/-- One entry of `state.evaluation_results`. -/
structure EvalResult where
  index : Nat
  passed : Bool
  feedback : Option String
deriving Repr, DecidableEq

/-- `LanguageLearningAim`: a category with example phrases. -/
structure LanguageAim where
  aim_category : String
  examples : List String
deriving Repr, DecidableEq

/-- `FullLesson.dict()`: a fully expanded lesson as stored in `final_courses`.
A degraded lesson keeps the stub fields and has the three detail lists empty. -/
structure LessonOut where
  lesson_number : Nat
  lesson_title : String
  lesson_introduction : String
  skill_aims : List String
  language_learning_aims : List LanguageAim
  lesson_summary : List String
deriving Repr, DecidableEq

/-- One entry of `state.final_courses` as assembled by `worker2_node`. -/
structure CourseFinal where
  course_name : String
  course_description : String
  topic_pair : Option TopicPair
  lessons : List LessonOut
deriving Repr, DecidableEq

/-- The `WorkflowState` TypedDict (the `status_callback` field is omitted:
it is an opaque fire-and-forget I/O hook with no data flow into the state). -/
structure WorkflowState where
  document_id : Nat
  introduction : String
  main_content : String
  conclusion : String
  role : String
  industry : String
  topic_pairs : List TopicPair
  worker_outputs : List WorkerOutput
  evaluation_results : List EvalResult
  retry_count : Nat
  failed_indices : List Nat
  final_courses : List CourseFinal
  current_step : String
  error : String
deriving Repr, DecidableEq

/-- Python exceptions that escape a node and abort `app.invoke`. -/
inductive RunError where
  /-- `ValueError: max_workers must be greater than 0` from `ThreadPoolExecutor`. -/
  | poolEmpty
  /-- `IndexError` from `state.topic_pairs[idx]`. -/
  | indexError
  /-- `UnboundLocalError` from the `eval_dict` reference in `evaluator_node`. -/
  | unboundLocal
  /-- artificial: recursion fuel ran out (proved unreachable for fuel 4). -/
  | fuelOut
deriving Repr, DecidableEq

/-- Result of the two orchestrator extraction calls. -/
structure OrchResult where
  role : String
  industry : String
  topic_pairs : List TopicPair
deriving Repr, DecidableEq

/-- The dict returned by the top-level `process_document`. -/
structure FinalResult where
  final_courses : List CourseFinal
  role : String
  industry : String
  error : String
  current_step : String
deriving Repr, DecidableEq

/-! ## Python dict as an insertion-ordered association list -/

/-- CPython dict assignment `d[k] = v`: update in place if `k` is present,
otherwise append at the end. -/
def dictInsert {α : Type} (k : Nat) (v : α) : List (Nat × α) → List (Nat × α)
  | [] => [(k, v)]
  | p :: rest => if p.1 = k then (k, v) :: rest else p :: dictInsert k v rest

/-- Dict lookup `d.get(k)`. -/
def dictFind {α : Type} (k : Nat) : List (Nat × α) → Option α
  | [] => none
  | p :: rest => if p.1 = k then some p.2 else dictFind k rest

/-- `list(d.keys())`. -/
def dictKeys {α : Type} (d : List (Nat × α)) : List Nat := d.map Prod.fst

/-- `list(d.values())`. -/
def dictValues {α : Type} (d : List (Nat × α)) : List α := d.map Prod.snd

/-- Fold a sequence of `d[keyOf x] = x` assignments into an existing dict. -/
def dictUpd {α : Type} (keyOf : α → Nat) (d : List (Nat × α)) (l : List α) :
    List (Nat × α) :=
  l.foldl (fun d x => dictInsert (keyOf x) x d) d

/-- The dict comprehension building a fresh map keyed by `keyOf`. -/
def dictOf {α : Type} (keyOf : α → Nat) (l : List α) : List (Nat × α) :=
  dictUpd keyOf [] l

/-! ## Local retry-with-backoff (`for attempt in range(max_retries): ...`) -/

/-- The retry loop shared by `_process_single_topic_with_retry` and
`_generate_full_lessons_with_retry`: run `f attempt` for
`attempt = first, first+1, ...` over `remaining` attempts, returning the
first success; the last attempt's exception propagates.  The inter-attempt
`time.sleep` is dropped. -/
def runAttempts {α : Type} (f : Nat → Except String α) : Nat → Nat → Except String α
  | _, 0 => .error "no attempts"
  | attempt, 1 => f attempt
  | attempt, r + 2 =>
    match f attempt with
    | .ok v => .ok v
    | .error _ => runAttempts f (attempt + 1) (r + 1)

/-- `max_retries = 3` wrapper. -/
def withRetry {α : Type} (f : Nat → Except String α) : Except String α :=
  runAttempts f 0 3

/-! ## The workflow nodes -/

/-- Initial state built by `process_document`. -/
def initialState (doc_id : Nat) (intro main concl : String) : WorkflowState where
  document_id := doc_id
  introduction := intro
  main_content := main
  conclusion := concl
  role := ""
  industry := ""
  topic_pairs := []
  worker_outputs := []
  evaluation_results := []
  retry_count := 0
  failed_indices := []
  final_courses := []
  current_step := "Starting"
  error := ""

/-- `orchestrator_node`: the two extraction calls are one oracle; on success
it fills role/industry/topic_pairs and resets `failed_indices`; on failure it
only records the error string — the graph edge to `parallel_workers` is
unconditional, so the state still flows on. -/
def orchestrator_node (orch : Except String OrchResult) (st : WorkflowState) :
    WorkflowState :=
  let st := { st with current_step := "Orchestrator analyzing content" }
  match orch with
  | .ok r =>
    { st with role := r.role, industry := r.industry,
              topic_pairs := r.topic_pairs, failed_indices := [] }
  | .error e => { st with error := "Orchestrator error: " ++ e }

/-- The feedback scan in `parallel_workers_node`: on a retry, the first
evaluation result matching this index with `passed == False` supplies the
feedback (which may itself be `None`). -/
def feedbackFor (st : WorkflowState) (idx : Nat) : Option String :=
  if st.retry_count > 0 then
    match st.evaluation_results.find? (fun e => e.index == idx && !e.passed) with
    | some e => e.feedback
    | none => none
  else none

/-- `_process_single_topic_with_retry` wrapped into a worker-output entry:
a success is tagged with its index and topic pair; an exhausted retry is
caught by the pool-collection loop and becomes the error-marker dict. -/
def runWorker (call : Nat → Option String → Except String GenResult)
    (idx : Nat) (pair : TopicPair) (feedback : Option String) : WorkerOutput :=
  match withRetry (fun attempt => call attempt feedback) with
  | .ok r =>
    { index := idx, topic_pair := some pair, course_name := r.course_name,
      course_description := r.course_description, lessons := r.lessons,
      error := none }
  | .error e =>
    { index := idx, topic_pair := none, course_name := "Error",
      course_description := "Error occurred during processing", lessons := [],
      error := some e }

/-- The retry-pass list comprehension
`[(idx, state.topic_pairs[idx]) for idx in state.failed_indices]`,
raising `IndexError` on an out-of-range index. -/
def selectRetryTopics (pairs : List TopicPair) :
    List Nat → Except RunError (List (Nat × TopicPair))
  | [] => .ok []
  | idx :: rest =>
    match pairs.get? idx with
    | some p =>
      match selectRetryTopics pairs rest with
      | .ok l => .ok ((idx, p) :: l)
      | .error e => .error e
    | none => .error .indexError

/-- Ascending-index order on worker outputs (the `key=lambda x: x.index`
sort key). -/
def rleW (a b : WorkerOutput) : Prop := a.index ≤ b.index

instance : DecidableRel rleW := fun a b => Nat.decLe a.index b.index

instance : IsTotal WorkerOutput rleW := ⟨fun a b => Nat.le_total a.index b.index⟩

instance : IsTrans WorkerOutput rleW := ⟨fun _ _ _ hab hbc => Nat.le_trans hab hbc⟩

/-- `outputs.sort(key=lambda x: x.index)`. -/
def sortByIndex (l : List WorkerOutput) : List WorkerOutput :=
  List.insertionSort rleW l

/-- `parallel_workers_node`.  `call idx attempt feedback` is the worker-1
generation call for unit `idx`; `sched` is the order in which the pool's
futures complete (an arbitrary permutation of the submitted tasks). -/
def parallel_workers_node (call : Nat → Nat → Option String → Except String GenResult)
    (sched : List (Nat × TopicPair) → List (Nat × TopicPair))
    (st : WorkflowState) : Except RunError WorkflowState :=
  let st := { st with current_step := "Running parallel workers" }
  let topicsE : Except RunError (List (Nat × TopicPair)) :=
    if st.retry_count > 0 ∧ st.failed_indices ≠ [] then
      selectRetryTopics st.topic_pairs st.failed_indices
    else .ok st.topic_pairs.enum
  match topicsE with
  | .error e => .error e
  | .ok topics =>
    if min 5 topics.length = 0 then .error .poolEmpty
    else
      let newOutputs := (sched topics).map
        (fun ip => runWorker (call ip.1) ip.1 ip.2 (feedbackFor st ip.1))
      if st.retry_count > 0 then
        let d1 := dictOf WorkerOutput.index st.worker_outputs
        let d2 := dictUpd WorkerOutput.index d1 newOutputs
        .ok { st with worker_outputs := sortByIndex (dictValues d2) }
      else
        .ok { st with worker_outputs := sortByIndex newOutputs }

/-- The evaluation of one non-error-marked output (`eval_dict` in the
source): a structured judgment call, with a thrown evaluation exception
caught and turned into a failing verdict. -/
def evalOutput (judge : WorkerOutput → Except String (Bool × Option String))
    (o : WorkerOutput) : EvalResult :=
  match judge o with
  | .ok pf => { index := o.index, passed := pf.1, feedback := pf.2 }
  | .error e =>
    { index := o.index, passed := false,
      feedback := some ("Evaluation error: " ++ e) }

/-- One iteration of the evaluator loop.  The accumulator carries the
verdict dict, the failed-index list, and the current value of the local
variable `eval_dict` (`none` = not yet assigned).  NOTE the faithful
rendering of the source's error branch: it assigns the fresh verdict to
`eval_result` but stores `eval_dict`, i.e. the *previous* iteration's
verdict — or raises `UnboundLocalError` if there is none. -/
def evalStep (judge : WorkerOutput → Except String (Bool × Option String))
    (acc : List (Nat × EvalResult) × List Nat × Option EvalResult)
    (o : WorkerOutput) :
    Except RunError (List (Nat × EvalResult) × List Nat × Option EvalResult) :=
  match o.error with
  | some _ =>
    match acc.2.2 with
    | none => .error .unboundLocal
    | some d => .ok (dictInsert o.index d acc.1, acc.2.1 ++ [o.index], some d)
  | none =>
    let e := evalOutput judge o
    .ok (dictInsert o.index e acc.1,
         if e.passed then acc.2.1 else acc.2.1 ++ [o.index], some e)

/-- `evaluator_node`: picks the outputs to evaluate, merges verdicts into the
by-index map, recomputes `failed_indices` from this pass, and increments the
retry counter when there are failures. -/
def evaluator_node (judge : WorkerOutput → Except String (Bool × Option String))
    (st : WorkflowState) : Except RunError WorkflowState :=
  let st := { st with current_step := "Evaluating worker outputs" }
  let outputs :=
    if st.retry_count > 0 ∧ st.failed_indices ≠ [] then
      st.worker_outputs.filter (fun o => st.failed_indices.contains o.index)
    else st.worker_outputs
  let prior := if st.retry_count > 0 then st.evaluation_results else []
  match outputs.foldlM (evalStep judge) (dictOf EvalResult.index prior, [], none) with
  | .error e => .error e
  | .ok acc =>
    .ok { st with
      evaluation_results := dictValues acc.1,
      failed_indices := acc.2.1,
      retry_count :=
        if acc.2.1 ≠ [] then st.retry_count + 1 else st.retry_count }

/-- `should_retry`: the single conditional edge of the graph. -/
def should_retry (st : WorkflowState) : Bool :=
  decide (st.failed_indices.length > 0) && decide (st.retry_count < 3)

/-- The `parallel_workers ⇄ evaluator` cycle of the compiled graph, with a
fuel bound on recursion depth (proved sufficient at 4).  Returns the final
state and the number of "retry" edge traversals taken.  `call pass idx
attempt feedback` and `judge pass output` let the oracles vary per pass. -/
def runLoop (call : Nat → Nat → Nat → Option String → Except String GenResult)
    (judge : Nat → WorkerOutput → Except String (Bool × Option String))
    (sched : Nat → List (Nat × TopicPair) → List (Nat × TopicPair)) :
    Nat → Nat → WorkflowState → Except RunError (WorkflowState × Nat)
  | 0, _, _ => .error .fuelOut
  | fuel + 1, pass, st =>
    match parallel_workers_node (call pass) (sched pass) st with
    | .error e => .error e
    | .ok st1 =>
      match evaluator_node (judge pass) st1 with
      | .error e => .error e
      | .ok st2 =>
        if should_retry st2 then
          match runLoop call judge sched fuel (pass + 1) st2 with
          | .error e => .error e
          | .ok sc => .ok (sc.1, sc.2 + 1)
        else .ok (st2, 0)

/-- A degraded lesson: the original stub fields with the three detail
arrays empty. -/
def degradeLesson (l : LessonIntro) : LessonOut where
  lesson_number := l.lesson_number
  lesson_title := l.lesson_title
  lesson_introduction := l.lesson_introduction
  skill_aims := []
  language_learning_aims := []
  lesson_summary := []

/-- `_generate_full_lessons`: expands each lesson stub in order; the
per-lesson call sits inside a `try`/`except` that degrades the lesson on
any failure, so this function itself never raises. -/
def generate_full_lessons (call : LessonIntro → Except String LessonOut)
    (lessons : List LessonIntro) : List LessonOut :=
  lessons.map (fun l =>
    match call l with
    | .ok fl => fl
    | .error _ => degradeLesson l)

/-- `_generate_full_lessons_with_retry`: the 3-attempt retry wraps the whole
course expansion; since `generate_full_lessons` catches every per-lesson
failure internally, the body never raises and the wrapper returns after the
first attempt. -/
def generate_full_lessons_with_retry
    (call : Nat → LessonIntro → Except String LessonOut)
    (lessons : List LessonIntro) : Except String (List LessonOut) :=
  runAttempts (fun attempt => .ok (generate_full_lessons (call attempt) lessons)) 0 3

/-- The worker-2 input filter:
`output.index not in failed_indices and "error" not in output`. -/
def passedCourses (st : WorkflowState) : List WorkerOutput :=
  st.worker_outputs.filter
    (fun o => !(st.failed_indices.contains o.index) && o.error.isNone)

/-- `worker2_node`: fans out course expansion over the passing outputs
(`schedW2` is the completion order of the pool), appending each completed
course to `final_courses`; a course whose expansion raises is dropped and
the error recorded.  An empty pool raises `ValueError` like stage 3. -/
def worker2_node (expand : WorkerOutput → Nat → LessonIntro → Except String LessonOut)
    (schedW2 : List WorkerOutput → List WorkerOutput)
    (st : WorkflowState) : Except RunError WorkflowState :=
  let st := { st with current_step := "Generating full lesson content" }
  let passed := passedCourses st
  if min 3 passed.length = 0 then .error .poolEmpty
  else
    let results := (schedW2 passed).map
      (fun o => (o, generate_full_lessons_with_retry (expand o) o.lessons))
    let final := results.foldl
      (fun acc or' =>
        match or'.2 with
        | .ok ls =>
          acc ++ [{ course_name := or'.1.course_name,
                    course_description := or'.1.course_description,
                    topic_pair := or'.1.topic_pair, lessons := ls : CourseFinal }]
        | .error _ => acc) []
    let err := results.foldl
      (fun e or' =>
        match or'.2 with
        | .ok _ => e
        | .error ex => "Worker 2 error: " ++ ex) st.error
    .ok { st with final_courses := final, error := err }

/-- `aggregator_node`: pure; only finalizes the step label. -/
def aggregator_node (st : WorkflowState) : WorkflowState :=
  { st with current_step := "Aggregating final output" }

/-! ## Segmentation stage (`langgraph_rag.py`) -/

/-- Python string truthiness coercion `a or b` for strings: `b` when `a` is
empty, else `a`. -/
def pythonOr (a b : String) : String := if a = "" then b else a

/-- Python `sep.join(parts)`. -/
def joinSep (sep : String) : List String → String
  | [] => ""
  | [x] => x
  | x :: y :: ys => x ++ sep ++ joinSep sep (y :: ys)

/-- The paragraph separator used by `content.split` and the joins. -/
def parSep : String := "\n\n"

/-- Python `content.split('\n\n')` on the character list: non-overlapping
left-to-right splitting on two consecutive newline characters, accumulating
the current fragment in reverse. -/
def splitParsAux : List Char → List Char → List (List Char)
  | [], acc => [acc.reverse]
  | '\n' :: '\n' :: rest, acc => acc.reverse :: splitParsAux rest []
  | c :: rest, acc => splitParsAux rest (c :: acc)

/-- Python `content.split('\n\n')`. -/
def splitParagraphs (s : String) : List String :=
  (splitParsAux s.data []).map (fun cs => String.mk cs)

/-- A structured-document dict with the three section fields. -/
structure SegResult where
  introduction : String
  main_content : String
  conclusion : String
deriving Repr, DecidableEq

/-- `_create_fallback_response`: heuristic positional split used when every
AI extraction attempt for a chunk has failed. -/
def create_fallback_response (content : String) (chunk_index : Nat) : SegResult :=
  let paragraphs := splitParagraphs content
  let total := paragraphs.length
  if total ≤ 3 then
    { introduction :=
        "[Fallback] Chunk " ++ toString (chunk_index + 1) ++
          " content (AI processing failed)",
      main_content := content,
      conclusion := "[Fallback] End of chunk content" }
  else
    let intro_end := max 1 (total / 4)
    let conclusion_start := min (total - 1) (total * 3 / 4)
    { introduction :=
        pythonOr (joinSep parSep (paragraphs.take intro_end))
          ("[Fallback] Introduction from chunk " ++ toString (chunk_index + 1)),
      main_content :=
        pythonOr
          (joinSep parSep ((paragraphs.drop intro_end).take (conclusion_start - intro_end)))
          ("[Fallback] Main content from chunk " ++ toString (chunk_index + 1)),
      conclusion :=
        pythonOr (joinSep parSep (paragraphs.drop conclusion_start))
          ("[Fallback] Conclusion from chunk " ++ toString (chunk_index + 1)) }

/-- `merge_chunk_results`: concatenates the non-partial sections of all
chunk results in chunk order, substituting a deterministic placeholder for a
category that yields nothing. -/
def merge_chunk_results (rs : List SegResult) : SegResult :=
  let intros := (rs.filter (fun r =>
    r.introduction != "" && !(r.introduction.startsWith "[PARTIAL]"))).map
      (fun r => r.introduction)
  let mains := (rs.filter (fun r => r.main_content != "")).map
      (fun r => r.main_content)
  let concls := (rs.filter (fun r =>
    r.conclusion != "" && !(r.conclusion.startsWith "[PARTIAL]"))).map
      (fun r => r.conclusion)
  { introduction :=
      if intros ≠ [] then joinSep parSep intros
      else "Document introduction not clearly identified.",
    main_content :=
      if mains ≠ [] then joinSep parSep mains
      else "Main content processing incomplete.",
    conclusion :=
      if concls ≠ [] then joinSep parSep concls
      else "Document conclusion not clearly identified." }

/-- `process_document`: the top-level entry point.  Builds the initial
state, runs the compiled graph, and packages the result dict.  Any
exception escaping a node propagates as `Except.error`. -/
def process_document (orch : Except String OrchResult)
    (call : Nat → Nat → Nat → Option String → Except String GenResult)
    (judge : Nat → WorkerOutput → Except String (Bool × Option String))
    (sched : Nat → List (Nat × TopicPair) → List (Nat × TopicPair))
    (expand : WorkerOutput → Nat → LessonIntro → Except String LessonOut)
    (schedW2 : List WorkerOutput → List WorkerOutput)
    (doc_id : Nat) (intro main concl : String) : Except RunError FinalResult :=
  let st0 := initialState doc_id intro main concl
  let st1 := orchestrator_node orch st0
  match runLoop call judge sched 4 0 st1 with
  | .error e => .error e
  | .ok sc =>
    match worker2_node expand schedW2 sc.1 with
    | .error e => .error e
    | .ok st3 =>
      let st4 := aggregator_node st3
      .ok { final_courses := st4.final_courses, role := st4.role,
            industry := st4.industry, error := st4.error,
            current_step := st4.current_step }

/-! ## Concrete scenario inputs used by witnesses and counterexamples -/

/-- A sample topic unit. -/
def wPair : TopicPair :=
  { topic := "Negotiating deadlines", description := "Handling schedule pressure" }

/-- A second sample topic unit. -/
def wPairB : TopicPair :=
  { topic := "Giving site updates", description := "Reporting progress to clients" }

/-- A worker-1 result the generation oracle can return. -/
def wGen : GenResult :=
  { course_name := "Negotiating deadlines",
    course_description := "Handling schedule pressure",
    lessons := [{ lesson_number := 1, lesson_title := "Asking for more time",
                  lesson_introduction := "Practice raising delays." }] }

/-- A generation oracle that always succeeds. -/
def wCall : Nat → Nat → Nat → Option String → Except String GenResult :=
  fun _ _ _ _ => .ok wGen

/-- A judgment oracle that passes everything. -/
def wJudge : Nat → WorkerOutput → Except String (Bool × Option String) :=
  fun _ _ => .ok (true, none)

/-- The identity completion order (futures complete in submission order). -/
def wSched : Nat → List (Nat × TopicPair) → List (Nat × TopicPair) := fun _ l => l

/-- State after a successful one-topic orchestrator pass. -/
def wState1 : WorkflowState :=
  orchestrator_node
    (.ok { role := "Project Manager", industry := "Construction",
           topic_pairs := [wPair] })
    (initialState 7 "intro" "body" "end")

/-- The state the retry loop reaches on the sample run. -/
def wLoopSt : WorkflowState :=
  match runLoop wCall wJudge wSched 4 0 wState1 with
  | .ok sc => sc.1
  | .error _ => wState1

/-- The state after the sample first generation pass. -/
def wPWSt : WorkflowState :=
  match parallel_workers_node (wCall 0) (wSched 0) wState1 with
  | .ok s => s
  | .error _ => wState1

/-- Worker output for unit 0 kept from a previous pass. -/
def wOut0 : WorkerOutput :=
  { index := 0, topic_pair := some wPair, course_name := "Negotiating deadlines",
    course_description := "Handling schedule pressure",
    lessons := [{ lesson_number := 1, lesson_title := "Asking for more time",
                  lesson_introduction := "Practice raising delays." }],
    error := none }

/-- Worker output for unit 1 that failed evaluation on the first pass. -/
def wOut1 : WorkerOutput :=
  { index := 1, topic_pair := some wPairB, course_name := "Wrong name",
    course_description := "Wrong description", lessons := [], error := none }

/-- A state entering a retry pass: two topics, unit 1 failed evaluation. -/
def wRetrySt : WorkflowState :=
  { wState1 with
      topic_pairs := [wPair, wPairB],
      retry_count := 1,
      failed_indices := [1],
      worker_outputs := [wOut0, wOut1],
      evaluation_results :=
        [{ index := 0, passed := true, feedback := none },
         { index := 1, passed := false,
           feedback := some "Course name must match the topic." }] }

/-- The state after the sample retry generation pass. -/
def wRetryPWSt : WorkflowState :=
  match parallel_workers_node (wCall 1) (wSched 1) wRetrySt with
  | .ok s => s
  | .error _ => wRetrySt

/-- A judgment oracle that passes every output it is asked about. -/
def cJudgePass : WorkerOutput → Except String (Bool × Option String) :=
  fun _ => .ok (true, none)

/-- A successfully generated worker output at index 0. -/
def cOutOk : WorkerOutput :=
  { index := 0, topic_pair := some wPair, course_name := "Negotiating deadlines",
    course_description := "Handling schedule pressure", lessons := [],
    error := none }

/-- An error-marked worker output at index 1. -/
def cOutErr : WorkerOutput :=
  { index := 1, topic_pair := none, course_name := "Error",
    course_description := "Error occurred during processing", lessons := [],
    error := some "boom" }

/-- First-pass state whose outputs contain an error-marked entry (last). -/
def cStateEval : WorkflowState :=
  { wState1 with topic_pairs := [wPair, wPairB],
                 worker_outputs := [cOutOk, cOutErr] }

/-- First-pass state whose FIRST output is the error-marked entry. -/
def cStateEvalErrFirst : WorkflowState :=
  { wState1 with topic_pairs := [wPair, wPairB],
                 worker_outputs := [cOutErr, cOutOk] }

/-- Result of evaluating `cStateEval`. -/
def cStateEvalRes : WorkflowState :=
  match evaluator_node cJudgePass cStateEval with
  | .ok s => s
  | .error _ => cStateEval

/-- A generation oracle that fails at every attempt. -/
def cCallFail : Nat → Nat → Nat → Option String → Except String GenResult :=
  fun _ _ _ _ => .error "LLM unavailable"

/-- Orchestrator result with exactly one topic. -/
def cOrchOne : Except String OrchResult :=
  .ok { role := "Project Manager", industry := "Construction",
        topic_pairs := [wPair] }

/-- A lesson-expansion oracle (used where its behaviour is irrelevant). -/
def wExpand : WorkerOutput → Nat → LessonIntro → Except String LessonOut :=
  fun _ _ l => .ok (degradeLesson l)

/-- The identity completion order for the expansion pool. -/
def wSchedW2 : List WorkerOutput → List WorkerOutput := fun l => l

/-- A lesson stub for the expansion counterexample. -/
def cLessonStub : LessonIntro :=
  { lesson_number := 1, lesson_title := "Asking for more time",
    lesson_introduction := "Practice raising delays." }

/-- The fully expanded lesson the flaky oracle produces when it succeeds. -/
def cLessonFull : LessonOut :=
  { lesson_number := 1, lesson_title := "Asking for more time",
    lesson_introduction := "Practice raising delays.",
    skill_aims := ["State the delay clearly"],
    language_learning_aims :=
      [{ aim_category := "Announcing a delay",
         examples := ["We need three more days"] }],
    lesson_summary := ["Be direct"] }

/-- An expansion oracle that fails on the first attempt only. -/
def cExpandFlaky : Nat → LessonIntro → Except String LessonOut :=
  fun attempt _ => if attempt = 0 then .error "rate limited" else .ok cLessonFull

/-- Modelled from the spec claim wording (for comparison against the code):
each lesson's expansion call individually wrapped in the up-to-3-attempt
local retry, degrading the lesson only after all three attempts fail. -/
def perLessonRetryExpansion (call : Nat → LessonIntro → Except String LessonOut)
    (lessons : List LessonIntro) : List LessonOut :=
  lessons.map (fun l =>
    match runAttempts (fun a => call a l) 0 3 with
    | .ok fl => fl
    | .error _ => degradeLesson l)

/-- A four-paragraph chunk for the segmentation fallback witness. -/
def cSegContent : String := "Alpha\n\nBeta\n\nGamma\n\nDelta"

/-! ## Lemmas about the dict model -/

/-- Key/value coherence: every stored value carries its own key. -/
def DictCoh {α : Type} (keyOf : α → Nat) (d : List (Nat × α)) : Prop :=
  ∀ p ∈ d, keyOf p.2 = p.1

theorem dictInsert_of_not_mem {α : Type} {k : Nat} {d : List (Nat × α)} (v : α)
    (h : k ∉ dictKeys d) : dictInsert k v d = d ++ [(k, v)] := by
  induction d with
  | nil => rfl
  | cons p rest ih =>
    simp only [dictKeys, List.map_cons, List.mem_cons, not_or] at h
    have hpk : ¬ p.1 = k := fun hh => h.1 hh.symm
    simp only [dictInsert, if_neg hpk, List.cons_append, List.cons.injEq, true_and]
    exact ih h.2

theorem dictKeys_insert_mem {α : Type} {k : Nat} {d : List (Nat × α)} (v : α)
    (h : k ∈ dictKeys d) : dictKeys (dictInsert k v d) = dictKeys d := by
  induction d with
  | nil => simp [dictKeys] at h
  | cons p rest ih =>
    simp only [dictKeys, List.map_cons, List.mem_cons] at h
    by_cases hk : p.1 = k
    · simp [dictInsert, hk, dictKeys]
    · rcases h with h | h
      · exact absurd h.symm hk
      · simpa [dictInsert, hk, dictKeys] using ih h

theorem dictKeys_append {α : Type} (d₁ d₂ : List (Nat × α)) :
    dictKeys (d₁ ++ d₂) = dictKeys d₁ ++ dictKeys d₂ := by
  simp [dictKeys]

theorem dictKeys_insert_sub {α : Type} (k : Nat) (v : α) (d : List (Nat × α)) :
    dictKeys (dictInsert k v d) = dictKeys d ∨
      dictKeys (dictInsert k v d) = dictKeys d ++ [k] := by
  by_cases h : k ∈ dictKeys d
  · exact Or.inl (dictKeys_insert_mem v h)
  · right
    rw [dictInsert_of_not_mem v h, dictKeys_append]
    rfl

theorem dictFind_insert {α : Type} (k' k : Nat) (v : α) (d : List (Nat × α)) :
    dictFind k' (dictInsert k v d) =
      if k' = k then some v else dictFind k' d := by
  induction d with
  | nil =>
    by_cases h : k' = k
    · subst h; simp [dictInsert, dictFind]
    · have h2 : ¬ k = k' := fun hh => h hh.symm
      simp [dictInsert, dictFind, h, h2]
  | cons p rest ih =>
    obtain ⟨a, b⟩ := p
    by_cases hak : a = k
    · subst hak
      by_cases h : a = k'
      · subst h; simp [dictInsert, dictFind]
      · have h2 : ¬ k' = a := fun hh => h hh.symm
        simp [dictInsert, dictFind, h, h2]
    · by_cases hak' : a = k'
      · subst hak'
        have h2 : ¬ a = k := hak
        simp [dictInsert, dictFind, h2, fun hh : a = k => h2 hh]
      · have h2 : ¬ a = k' := hak'
        simp [dictInsert, dictFind, hak, h2, ih]

theorem DictCoh_insert {α : Type} {keyOf : α → Nat} {d : List (Nat × α)}
    {k : Nat} {v : α} (hd : DictCoh keyOf d) (hv : keyOf v = k) :
    DictCoh keyOf (dictInsert k v d) := by
  induction d with
  | nil => intro p hp; simp only [dictInsert, List.mem_singleton] at hp; simp [hp, hv]
  | cons q rest ih =>
    have hq := hd q (List.mem_cons_self _ _)
    have hrest : DictCoh keyOf rest := fun p hp => hd p (List.mem_cons_of_mem _ hp)
    intro p hp
    simp only [dictInsert] at hp
    by_cases hqk : q.1 = k
    · simp only [if_pos hqk, List.mem_cons] at hp
      rcases hp with rfl | hp
      · simpa using hv
      · exact hd p (List.mem_cons_of_mem _ hp)
    · simp only [if_neg hqk, List.mem_cons] at hp
      rcases hp with rfl | hp
      · exact hq
      · exact ih hrest p hp

theorem dictValues_map_keyOf {α : Type} {keyOf : α → Nat} {d : List (Nat × α)}
    (h : DictCoh keyOf d) : (dictValues d).map keyOf = dictKeys d := by
  simp only [dictValues, dictKeys, List.map_map]
  exact List.map_congr_left h

theorem dictKeys_nodup_insert {α : Type} {k : Nat} {v : α} {d : List (Nat × α)}
    (h : (dictKeys d).Nodup) : (dictKeys (dictInsert k v d)).Nodup := by
  rcases dictKeys_insert_sub k v d with heq | heq
  · rwa [heq]
  · rw [heq]
    by_cases hk : k ∈ dictKeys d
    · rw [dictKeys_insert_mem v hk] at heq
      exact heq ▸ h
    · simpa [List.nodup_append, hk] using h

theorem dictKeys_upd_subset {α : Type} {keyOf : α → Nat} {l : List α}
    {d : List (Nat × α)} (h : ∀ x ∈ l, keyOf x ∈ dictKeys d) :
    dictKeys (dictUpd keyOf d l) = dictKeys d := by
  induction l generalizing d with
  | nil => rfl
  | cons x xs ih =>
    have hx : keyOf x ∈ dictKeys d := h x (List.mem_cons_self _ _)
    have hkeys : dictKeys (dictInsert (keyOf x) x d) = dictKeys d :=
      dictKeys_insert_mem x hx
    have : dictUpd keyOf d (x :: xs) = dictUpd keyOf (dictInsert (keyOf x) x d) xs := rfl
    rw [this, ih, hkeys]
    intro y hy
    rw [hkeys]
    exact h y (List.mem_cons_of_mem _ hy)

theorem dictUpd_append {α : Type} {keyOf : α → Nat} {l : List α}
    {d : List (Nat × α)} (hnew : ∀ x ∈ l, keyOf x ∉ dictKeys d)
    (hnd : (l.map keyOf).Nodup) :
    dictUpd keyOf d l = d ++ l.map (fun x => (keyOf x, x)) := by
  induction l generalizing d with
  | nil => simp [dictUpd]
  | cons x xs ih =>
    have hx : keyOf x ∉ dictKeys d := hnew x (List.mem_cons_self _ _)
    have hstep : dictUpd keyOf d (x :: xs) = dictUpd keyOf (dictInsert (keyOf x) x d) xs := rfl
    rw [hstep, dictInsert_of_not_mem x hx]
    simp only [List.map_cons, List.nodup_cons] at hnd
    rw [ih ?_ hnd.2]
    · simp
    · intro y hy
      rw [dictKeys_append]
      simp only [List.mem_append]
      rintro (h | h)
      · exact hnew y (List.mem_cons_of_mem _ hy) h
      · simp only [dictKeys, List.map_cons, List.map_nil, List.mem_singleton] at h
        exact hnd.1 (h ▸ List.mem_map_of_mem keyOf hy)

theorem dictOf_eq {α : Type} {keyOf : α → Nat} {l : List α}
    (hnd : (l.map keyOf).Nodup) :
    dictOf keyOf l = l.map (fun x => (keyOf x, x)) := by
  unfold dictOf
  rw [dictUpd_append (by simp [dictKeys]) hnd]
  simp

theorem DictCoh_upd {α : Type} {keyOf : α → Nat} {l : List α}
    {d : List (Nat × α)} (h : DictCoh keyOf d) :
    DictCoh keyOf (dictUpd keyOf d l) := by
  induction l generalizing d with
  | nil => exact h
  | cons x xs ih => exact ih (DictCoh_insert h rfl)

theorem DictCoh_dictOf {α : Type} (keyOf : α → Nat) (l : List α) :
    DictCoh keyOf (dictOf keyOf l) :=
  DictCoh_upd (fun p hp => absurd hp (List.not_mem_nil p))

theorem dictKeys_nodup_upd {α : Type} {keyOf : α → Nat} {l : List α}
    {d : List (Nat × α)} (h : (dictKeys d).Nodup) :
    (dictKeys (dictUpd keyOf d l)).Nodup := by
  induction l generalizing d with
  | nil => exact h
  | cons x xs ih => exact ih (dictKeys_nodup_insert h)

theorem dictFind_upd {α : Type} (keyOf : α → Nat) (k : Nat) (l : List α)
    (d : List (Nat × α)) :
    dictFind k (dictUpd keyOf d l) =
      match l.reverse.find? (fun x => keyOf x == k) with
      | some x => some x
      | none => dictFind k d := by
  induction l generalizing d with
  | nil => rfl
  | cons x xs ih =>
    have hstep : dictUpd keyOf d (x :: xs) = dictUpd keyOf (dictInsert (keyOf x) x d) xs := rfl
    rw [hstep, ih]
    rw [List.reverse_cons, List.find?_append]
    cases hfind : xs.reverse.find? (fun y => keyOf y == k) with
    | some y => simp
    | none =>
      simp only [Option.none_or]
      rw [dictFind_insert]
      by_cases hk : k = keyOf x
      · simp [List.find?, hk, if_pos hk]
      · have : (keyOf x == k) = false := by
          simp [BEq.beq]
          omega
        simp [List.find?, this, if_neg hk]

theorem dictValues_filter_nil {α : Type} {keyOf : α → Nat} {d : List (Nat × α)}
    {k : Nat} (hcoh : DictCoh keyOf d) (hk : k ∉ dictKeys d) :
    (dictValues d).filter (fun v => keyOf v == k) = [] := by
  rw [List.filter_eq_nil_iff]
  intro v hv
  simp only [dictValues, List.mem_map] at hv
  obtain ⟨p, hp, rfl⟩ := hv
  have := hcoh p hp
  simp only [beq_iff_eq, this]
  intro hcontra
  exact hk (hcontra ▸ List.mem_map_of_mem Prod.fst hp)

theorem dictValues_filter_eq {α : Type} {keyOf : α → Nat} {d : List (Nat × α)}
    (k : Nat) (hnd : (dictKeys d).Nodup) (hcoh : DictCoh keyOf d) :
    (dictValues d).filter (fun v => keyOf v == k) =
      match dictFind k d with
      | some v => [v]
      | none => [] := by
  induction d with
  | nil => rfl
  | cons p rest ih =>
    have hp1 : keyOf p.2 = p.1 := hcoh p (List.mem_cons_self _ _)
    have hndrest : (dictKeys rest).Nodup := (List.nodup_cons.mp hnd).2
    have hcohrest : DictCoh keyOf rest := fun q hq => hcoh q (List.mem_cons_of_mem _ hq)
    have hvals : dictValues (p :: rest) = p.2 :: dictValues rest := rfl
    rw [hvals, List.filter_cons]
    by_cases hk : p.1 = k
    · have hbeq : (keyOf p.2 == k) = true := by simp [hp1, hk]
      have hnotmem : k ∉ dictKeys rest := hk ▸ (List.nodup_cons.mp hnd).1
      rw [dictValues_filter_nil hcohrest hnotmem]
      simp [hbeq, dictFind, hk]
    · have hbeq : (keyOf p.2 == k) = false := by simp [hp1, hk]
      rw [ih hndrest hcohrest]
      simp [hbeq, dictFind, hk]

theorem find?_keyOf_unique {α : Type} {keyOf : α → Nat} {l : List α} {x : α}
    {k : Nat} (hnd : (l.map keyOf).Nodup) (hx : x ∈ l) (hk : keyOf x = k) :
    l.find? (fun y => keyOf y == k) = some x := by
  induction l with
  | nil => cases hx
  | cons y ys ih =>
    simp only [List.map_cons, List.nodup_cons] at hnd
    rcases List.mem_cons.mp hx with rfl | hx'
    · simp [List.find?, hk]
    · have hyk : (keyOf y == k) = false := by
        simp only [beq_eq_false_iff_ne, ne_eq]
        intro hcontra
        exact hnd.1 (by rw [hcontra, ← hk]; exact List.mem_map_of_mem keyOf hx')
      simp only [List.find?, hyk]
      exact ih hnd.2 hx'

/-! ## Lemmas about the local retry wrapper and the worker entries -/

theorem runAttempts_three {α : Type} (f : Nat → Except String α) :
    runAttempts f 0 3 =
      match f 0 with
      | .ok v => .ok v
      | .error _ =>
        match f 1 with
        | .ok v => .ok v
        | .error _ => f 2 := rfl

theorem withRetry_of_errors {α : Type} {f : Nat → Except String α} {e0 e1 e2 : String}
    (h0 : f 0 = .error e0) (h1 : f 1 = .error e1) (h2 : f 2 = .error e2) :
    withRetry f = .error e2 := by
  unfold withRetry
  rw [runAttempts_three, h0, h1, h2]

theorem withRetry_of_ok0 {α : Type} {f : Nat → Except String α} {v : α}
    (h0 : f 0 = .ok v) : withRetry f = .ok v := by
  unfold withRetry
  rw [runAttempts_three, h0]

theorem runWorker_index (call : Nat → Option String → Except String GenResult)
    (idx : Nat) (pair : TopicPair) (feedback : Option String) :
    (runWorker call idx pair feedback).index = idx := by
  unfold runWorker
  cases withRetry (fun attempt => call attempt feedback) <;> rfl

theorem runWorker_error_marked {call : Nat → Option String → Except String GenResult}
    (idx : Nat) (pair : TopicPair) {feedback : Option String} {e0 e1 e2 : String}
    (h0 : call 0 feedback = .error e0) (h1 : call 1 feedback = .error e1)
    (h2 : call 2 feedback = .error e2) :
    runWorker call idx pair feedback =
      { index := idx, topic_pair := none, course_name := "Error",
        course_description := "Error occurred during processing", lessons := [],
        error := some e2 } := by
  unfold runWorker
  rw [withRetry_of_errors h0 h1 h2]

theorem runWorker_ok {call : Nat → Option String → Except String GenResult}
    (idx : Nat) (pair : TopicPair) {feedback : Option String} {r : GenResult}
    (h0 : call 0 feedback = .ok r) :
    runWorker call idx pair feedback =
      { index := idx, topic_pair := some pair, course_name := r.course_name,
        course_description := r.course_description, lessons := r.lessons,
        error := none } := by
  unfold runWorker
  rw [withRetry_of_ok0 h0]

theorem feedbackFor_step (st : WorkflowState) (c : String) (idx : Nat) :
    feedbackFor { st with current_step := c } idx = feedbackFor st idx := rfl

theorem feedbackFor_rc0 (st : WorkflowState) (h : st.retry_count = 0) (idx : Nat) :
    feedbackFor st idx = none := by
  unfold feedbackFor
  rw [h]
  rfl

/-! ## Lemmas about sorting worker outputs -/

theorem sortByIndex_sorted (l : List WorkerOutput) :
    List.Sorted rleW (sortByIndex l) :=
  List.sorted_insertionSort rleW l

theorem sortByIndex_perm (l : List WorkerOutput) : (sortByIndex l).Perm l :=
  List.perm_insertionSort rleW l

/-! ## Lemmas about `selectRetryTopics` and `parallel_workers_node` -/

theorem selectRetryTopics_spec {pairs : List TopicPair} {l : List Nat}
    {topics : List (Nat × TopicPair)}
    (h : selectRetryTopics pairs l = .ok topics) :
    topics.map Prod.fst = l ∧ ∀ ip ∈ topics, pairs.get? ip.1 = some ip.2 := by
  induction l generalizing topics with
  | nil =>
    simp only [selectRetryTopics] at h
    cases h
    exact ⟨rfl, fun ip hip => absurd hip (List.not_mem_nil ip)⟩
  | cons idx rest ih =>
    simp only [selectRetryTopics] at h
    cases hget : pairs.get? idx with
    | none => rw [hget] at h; cases h
    | some p =>
      rw [hget] at h
      cases hrec : selectRetryTopics pairs rest with
      | error e => rw [hrec] at h; cases h
      | ok l' =>
        rw [hrec] at h
        cases h
        obtain ⟨hmap, hmem⟩ := ih hrec
        refine ⟨by simp [hmap], ?_⟩
        intro ip hip
        rcases List.mem_cons.mp hip with rfl | hip'
        · exact hget
        · exact hmem ip hip'

theorem selectRetryTopics_length {pairs : List TopicPair} {l : List Nat}
    {topics : List (Nat × TopicPair)}
    (h : selectRetryTopics pairs l = .ok topics) : topics.length = l.length := by
  have := (selectRetryTopics_spec h).1
  calc topics.length = (topics.map Prod.fst).length := by simp
    _ = l.length := by rw [this]

theorem parallel_workers_rc0 (call : Nat → Nat → Option String → Except String GenResult)
    (sched : List (Nat × TopicPair) → List (Nat × TopicPair)) (st : WorkflowState)
    (hrc : st.retry_count = 0) (hne : st.topic_pairs ≠ []) :
    parallel_workers_node call sched st =
      .ok { st with
              current_step := "Running parallel workers",
              worker_outputs := sortByIndex ((sched st.topic_pairs.enum).map
                (fun ip => runWorker (call ip.1) ip.1 ip.2 none)) } := by
  have hlen : min 5 st.topic_pairs.enum.length ≠ 0 := by
    have : st.topic_pairs.length ≠ 0 := fun hc => hne (List.length_eq_zero.mp hc)
    simp only [List.enum_length]
    omega
  simp only [parallel_workers_node, hrc, gt_iff_lt, Nat.lt_irrefl, false_and,
    if_false, hlen, if_neg hlen]
  simp [feedbackFor]

theorem parallel_workers_retry (call : Nat → Nat → Option String → Except String GenResult)
    (sched : List (Nat × TopicPair) → List (Nat × TopicPair)) (st : WorkflowState)
    (hrc : st.retry_count > 0) (hne : st.failed_indices ≠ [])
    {topics : List (Nat × TopicPair)}
    (hsel : selectRetryTopics st.topic_pairs st.failed_indices = .ok topics) :
    parallel_workers_node call sched st =
      .ok { st with
              current_step := "Running parallel workers",
              worker_outputs := sortByIndex (dictValues (dictUpd WorkerOutput.index
                (dictOf WorkerOutput.index st.worker_outputs)
                ((sched topics).map
                  (fun ip => runWorker (call ip.1) ip.1 ip.2 (feedbackFor st ip.1))))) } := by
  have hlen : min 5 topics.length ≠ 0 := by
    have h1 : topics.length = st.failed_indices.length := selectRetryTopics_length hsel
    have h2 : st.failed_indices.length ≠ 0 :=
      fun hc => hne (List.length_eq_zero.mp hc)
    omega
  simp only [parallel_workers_node, hrc, hne, ne_eq, not_false_eq_true, and_self,
    if_true, feedbackFor_step, hsel, if_neg hlen]

/-! ## Lemmas about `evaluator_node`, `should_retry` and the retry loop -/

theorem selectRetryTopics_error {pairs : List TopicPair} :
    ∀ {l : List Nat} {e : RunError},
      selectRetryTopics pairs l = .error e → e = .indexError := by
  intro l
  induction l with
  | nil => intro e h; simp [selectRetryTopics] at h
  | cons idx rest ih =>
    intro e h
    simp only [selectRetryTopics] at h
    cases hget : pairs.get? idx with
    | none => rw [hget] at h; cases h; rfl
    | some p =>
      rw [hget] at h
      cases hrec : selectRetryTopics pairs rest with
      | error e' => rw [hrec] at h; cases h; exact ih hrec
      | ok l' => rw [hrec] at h; cases h

theorem parallel_workers_preserves
    {call : Nat → Nat → Option String → Except String GenResult}
    {sched : List (Nat × TopicPair) → List (Nat × TopicPair)}
    {st st' : WorkflowState}
    (h : parallel_workers_node call sched st = .ok st') :
    st'.retry_count = st.retry_count ∧ st'.topic_pairs = st.topic_pairs ∧
      st'.failed_indices = st.failed_indices ∧
      st'.evaluation_results = st.evaluation_results := by
  simp only [parallel_workers_node] at h
  split at h
  · cases h
  · split at h
    · cases h
    · split at h <;> (cases h; exact ⟨rfl, rfl, rfl, rfl⟩)

theorem parallel_workers_no_fuelOut
    {call : Nat → Nat → Option String → Except String GenResult}
    {sched : List (Nat × TopicPair) → List (Nat × TopicPair)}
    {st : WorkflowState} :
    parallel_workers_node call sched st ≠ .error .fuelOut := by
  simp only [parallel_workers_node]
  split
  · next e heq =>
    intro hc
    cases hc
    split at heq
    · exact absurd (selectRetryTopics_error heq) (by intro hh; cases hh)
    · cases heq
  · split
    · intro hc; cases hc
    · split <;> (intro hc; cases hc)

theorem evalStep_error
    {judge : WorkerOutput → Except String (Bool × Option String)}
    {acc : List (Nat × EvalResult) × List Nat × Option EvalResult}
    {o : WorkerOutput} {e : RunError} (h : evalStep judge acc o = .error e) :
    e = .unboundLocal := by
  simp only [evalStep] at h
  split at h
  · split at h
    · cases h; rfl
    · cases h
  · cases h

theorem foldlM_evalStep_error
    {judge : WorkerOutput → Except String (Bool × Option String)}
    {outputs : List WorkerOutput} :
    ∀ {acc : List (Nat × EvalResult) × List Nat × Option EvalResult} {e : RunError},
      List.foldlM (evalStep judge) acc outputs = .error e → e = .unboundLocal := by
  induction outputs with
  | nil =>
    intro acc e h
    rw [List.foldlM_nil] at h
    cases h
  | cons o rest ih =>
    intro acc e h
    rw [List.foldlM_cons] at h
    cases hstep : evalStep judge acc o with
    | error e' =>
      rw [hstep] at h
      cases h
      exact evalStep_error hstep
    | ok acc' =>
      rw [hstep] at h
      exact ih h

theorem evaluator_no_fuelOut
    {judge : WorkerOutput → Except String (Bool × Option String)}
    {st : WorkflowState} : evaluator_node judge st ≠ .error .fuelOut := by
  simp only [evaluator_node]
  split
  · next e heq =>
    intro hc
    cases hc
    exact absurd (foldlM_evalStep_error heq) (by intro hh; cases hh)
  · intro hc; cases hc

theorem evaluator_rc
    {judge : WorkerOutput → Except String (Bool × Option String)}
    {st st' : WorkflowState} (h : evaluator_node judge st = .ok st') :
    st'.retry_count =
      (if st'.failed_indices ≠ [] then st.retry_count + 1 else st.retry_count) := by
  simp only [evaluator_node] at h
  split at h
  · cases h
  · cases h
    simp only []

theorem should_retry_iff (st : WorkflowState) :
    should_retry st = true ↔ (st.failed_indices ≠ [] ∧ st.retry_count < 3) := by
  simp only [should_retry, Bool.and_eq_true, decide_eq_true_eq, gt_iff_lt,
    List.length_pos]

theorem runLoop_count_le
    (call : Nat → Nat → Nat → Option String → Except String GenResult)
    (judge : Nat → WorkerOutput → Except String (Bool × Option String))
    (sched : Nat → List (Nat × TopicPair) → List (Nat × TopicPair)) :
    ∀ fuel pass st st' c, runLoop call judge sched fuel pass st = .ok (st', c) →
      c ≤ 3 - st.retry_count := by
  intro fuel
  induction fuel with
  | zero => intro pass st st' c h; cases h
  | succ fuel ih =>
    intro pass st st' c h
    simp only [runLoop] at h
    split at h
    · cases h
    · next st1 hpw =>
      split at h
      · cases h
      · next st2 hev =>
        split at h
        · next hr =>
          split at h
          · cases h
          · next sc hrec =>
            cases h
            have hc' := ih (pass + 1) st2 sc.1 sc.2 hrec
            obtain ⟨hfail, hlt⟩ := (should_retry_iff st2).mp hr
            have hrc2 : st2.retry_count = st1.retry_count + 1 := by
              rw [evaluator_rc hev, if_pos hfail]
            have hrc1 : st1.retry_count = st.retry_count :=
              (parallel_workers_preserves hpw).1
            omega
        · cases h
          exact Nat.zero_le _

theorem runLoop_no_fuelOut
    (call : Nat → Nat → Nat → Option String → Except String GenResult)
    (judge : Nat → WorkerOutput → Except String (Bool × Option String))
    (sched : Nat → List (Nat × TopicPair) → List (Nat × TopicPair)) :
    ∀ fuel pass st, st.retry_count ≤ 3 → 4 ≤ st.retry_count + fuel →
      runLoop call judge sched fuel pass st ≠ .error .fuelOut := by
  intro fuel
  induction fuel with
  | zero => intro pass st h1 h2; omega
  | succ fuel ih =>
    intro pass st h1 h2
    simp only [runLoop]
    split
    · next st1 hpw =>
      intro hc
      cases hc
      exact parallel_workers_no_fuelOut hpw
    · next st1 hpw =>
      split
      · next e hev =>
        intro hc
        cases hc
        exact evaluator_no_fuelOut hev
      · next st2 hev =>
        split
        · next hr =>
          split
          · next e hrec =>
            intro hc
            cases hc
            obtain ⟨hfail, hlt⟩ := (should_retry_iff st2).mp hr
            have hrc2 : st2.retry_count = st1.retry_count + 1 := by
              rw [evaluator_rc hev, if_pos hfail]
            have hrc1 : st1.retry_count = st.retry_count :=
              (parallel_workers_preserves hpw).1
            exact ih (pass + 1) st2 (by omega) (by omega) hrec
          · next sc hrec => intro hc; cases hc
        · next hr => intro hc; cases hc

/-! ## Claim C1 and C5 theorems -/

/-- C1: the evaluation-retry loop is bounded.  The workflow takes the
"retry" edge from the evaluation gate back to fan-out generation exactly
when the failed-index set is non-empty AND the retry counter is below 3,
and otherwise takes the "continue" edge; consequently a run started with
retry counter 0 never exhausts the recursion bound, and whenever the loop
completes it has taken at most 3 retry traversals of the
generating/evaluating edge. -/
theorem retry_loop_bounded
    (call : Nat → Nat → Nat → Option String → Except String GenResult)
    (judge : Nat → WorkerOutput → Except String (Bool × Option String))
    (sched : Nat → List (Nat × TopicPair) → List (Nat × TopicPair))
    (st : WorkflowState) (h0 : st.retry_count = 0) :
    (∀ s : WorkflowState,
        should_retry s = true ↔ (s.failed_indices ≠ [] ∧ s.retry_count < 3)) ∧
    runLoop call judge sched 4 0 st ≠ .error .fuelOut ∧
    (∀ st' c, runLoop call judge sched 4 0 st = .ok (st', c) → c ≤ 3) := by
  refine ⟨should_retry_iff, ?_, ?_⟩
  · exact runLoop_no_fuelOut call judge sched 4 0 st (by omega) (by omega)
  · intro st' c h
    have := runLoop_count_le call judge sched 4 0 st st' c h
    omega

theorem retry_loop_bounded_witness :
    wState1.retry_count = 0 ∧ (0 : Nat) ≤ 3 :=
  ⟨rfl, (retry_loop_bounded wCall wJudge wSched wState1 rfl).2.2 wLoopSt 0 rfl⟩

/-- C5: ordering invariant — for every fan-out generation pass (first pass
or retry-merge pass) and every completion order of the concurrent workers,
the stored worker-output list is sorted ascending by index. -/
theorem draft_results_sorted
    {call : Nat → Nat → Option String → Except String GenResult}
    {sched : List (Nat × TopicPair) → List (Nat × TopicPair)}
    {st st' : WorkflowState}
    (hrun : parallel_workers_node call sched st = .ok st') :
    List.Sorted rleW st'.worker_outputs := by
  simp only [parallel_workers_node] at hrun
  split at hrun
  · cases hrun
  · split at hrun
    · cases hrun
    · split at hrun <;> (cases hrun; exact sortByIndex_sorted _)

theorem draft_results_sorted_witness :
    List.Sorted rleW wPWSt.worker_outputs :=
  @draft_results_sorted (wCall 0) (wSched 0) wState1 wPWSt rfl

/-! ## Claim C4: index stability -/

theorem dictKeys_dictOf {α : Type} {keyOf : α → Nat} {l : List α}
    (hnd : (l.map keyOf).Nodup) :
    dictKeys (dictOf keyOf l) = l.map keyOf := by
  rw [dictOf_eq hnd]
  simp [dictKeys, List.map_map]

theorem dictValues_dictOf {α : Type} {keyOf : α → Nat} {l : List α}
    (hnd : (l.map keyOf).Nodup) :
    dictValues (dictOf keyOf l) = l := by
  rw [dictOf_eq hnd]
  simp only [dictValues, List.map_map]
  rw [show (Prod.snd ∘ fun x : α => (keyOf x, x)) = id from rfl, List.map_id]

theorem Perm_eq_of_short {α : Type} {l l' : List α} (h : l.Perm l')
    (hlen : l'.length ≤ 1) : l = l' := by
  cases l' with
  | nil => exact List.perm_nil.mp h
  | cons a t =>
    cases t with
    | nil => exact List.perm_singleton.mp h
    | cons b t2 => simp at hlen

theorem map_index_eq_fst (g : Nat × TopicPair → WorkerOutput)
    (hg : ∀ ip, (g ip).index = ip.1) (l : List (Nat × TopicPair)) :
    (l.map g).map WorkerOutput.index = l.map Prod.fst := by
  rw [List.map_map]
  exact List.map_congr_left (fun ip _ => hg ip)

theorem merged_outputs_indices_perm {new old : List WorkerOutput} {N : Nat}
    (hold : (old.map WorkerOutput.index).Perm (List.range N))
    (hnew : ∀ x ∈ new, x.index ∈ old.map WorkerOutput.index) :
    ((sortByIndex (dictValues (dictUpd WorkerOutput.index
        (dictOf WorkerOutput.index old) new))).map WorkerOutput.index).Perm
      (List.range N) := by
  have hndold : (old.map WorkerOutput.index).Nodup :=
    hold.nodup_iff.mpr (List.nodup_range N)
  have hd1keys : dictKeys (dictOf WorkerOutput.index old) =
      old.map WorkerOutput.index := dictKeys_dictOf hndold
  have hsub : ∀ x ∈ new,
      WorkerOutput.index x ∈ dictKeys (dictOf WorkerOutput.index old) := by
    intro x hx
    rw [hd1keys]
    exact hnew x hx
  have hkeys2 : dictKeys (dictUpd WorkerOutput.index
      (dictOf WorkerOutput.index old) new) =
      dictKeys (dictOf WorkerOutput.index old) := dictKeys_upd_subset hsub
  have hcoh2 : DictCoh WorkerOutput.index (dictUpd WorkerOutput.index
      (dictOf WorkerOutput.index old) new) :=
    DictCoh_upd (DictCoh_dictOf _ _)
  have heq : (dictValues (dictUpd WorkerOutput.index
      (dictOf WorkerOutput.index old) new)).map WorkerOutput.index =
      old.map WorkerOutput.index := by
    rw [dictValues_map_keyOf hcoh2, hkeys2, hd1keys]
  exact ((sortByIndex_perm _).map WorkerOutput.index).trans (heq ▸ hold)

theorem parallel_workers_nil_topics
    {call : Nat → Nat → Option String → Except String GenResult}
    {sched : List (Nat × TopicPair) → List (Nat × TopicPair)}
    {st : WorkflowState} (hne : st.topic_pairs = [])
    (hcond : ¬(st.retry_count > 0 ∧ st.failed_indices ≠ [])) :
    parallel_workers_node call sched st = .error .poolEmpty := by
  simp [parallel_workers_node, hcond, hne, List.enum]

theorem parallel_workers_hybrid
    (call : Nat → Nat → Option String → Except String GenResult)
    (sched : List (Nat × TopicPair) → List (Nat × TopicPair))
    (st : WorkflowState)
    (hrc : st.retry_count > 0) (hfail : st.failed_indices = [])
    (hne : st.topic_pairs ≠ []) :
    parallel_workers_node call sched st =
      .ok { st with
              current_step := "Running parallel workers",
              worker_outputs := sortByIndex (dictValues (dictUpd WorkerOutput.index
                (dictOf WorkerOutput.index st.worker_outputs)
                ((sched st.topic_pairs.enum).map
                  (fun ip => runWorker (call ip.1) ip.1 ip.2 (feedbackFor st ip.1))))) } := by
  have hcond : ¬(st.retry_count > 0 ∧ st.failed_indices ≠ []) := fun hc => hc.2 hfail
  have hlen : min 5 st.topic_pairs.enum.length ≠ 0 := by
    have : st.topic_pairs.length ≠ 0 := fun hc => hne (List.length_eq_zero.mp hc)
    simp only [List.enum_length]
    omega
  simp only [parallel_workers_node, if_neg hcond, if_neg hlen, if_pos hrc,
    feedbackFor_step]

/-- C4: index stability — for a run whose `topic_pairs` has N topics, after
every fan-out generation pass (first pass, retry pass, or degenerate
retry-counter pass) the multiset of indices in the stored worker-output list
is exactly 0, ..., N-1 with no repetition (assuming the same held before the
pass when merging), for every worker completion order; moreover a unit whose
generation call fails at every local attempt still contributes an
error-marked entry carrying its own index. -/
theorem index_stability
    (call : Nat → Nat → Option String → Except String GenResult)
    (sched : List (Nat × TopicPair) → List (Nat × TopicPair))
    (st st' : WorkflowState)
    (hsched : ∀ l, (sched l).Perm l)
    (hpre : st.retry_count > 0 →
      (st.worker_outputs.map WorkerOutput.index).Perm
        (List.range st.topic_pairs.length))
    (hrun : parallel_workers_node call sched st = .ok st') :
    (st'.worker_outputs.map WorkerOutput.index).Perm
        (List.range st.topic_pairs.length) ∧
    (∀ idx pair fb e, (∀ a, call idx a fb = .error e) →
      runWorker (call idx) idx pair fb =
        { index := idx, topic_pair := none, course_name := "Error",
          course_description := "Error occurred during processing",
          lessons := [], error := some e }) := by
  constructor
  · by_cases hrc : st.retry_count > 0
    · by_cases hfail : st.failed_indices = []
      · -- degenerate pass: retry counter positive but failed set empty
        by_cases hne : st.topic_pairs = []
        · rw [parallel_workers_nil_topics hne (fun hc => hc.2 hfail)] at hrun
          cases hrun
        · rw [parallel_workers_hybrid call sched st hrc hfail hne] at hrun
          cases hrun
          have hold := hpre hrc
          apply merged_outputs_indices_perm hold
          intro x hx
          have hidx : x.index ∈ (sched st.topic_pairs.enum).map Prod.fst := by
            rw [← map_index_eq_fst
              (fun ip => runWorker (call ip.1) ip.1 ip.2 (feedbackFor st ip.1))
              (fun ip : Nat × TopicPair =>
                runWorker_index (call ip.1) ip.1 ip.2 (feedbackFor st ip.1))
              (sched st.topic_pairs.enum)]
            exact List.mem_map_of_mem WorkerOutput.index hx
          have hrange : x.index ∈ List.range st.topic_pairs.length := by
            have hperm := ((hsched st.topic_pairs.enum).map Prod.fst)
            rw [List.enum_map_fst] at hperm
            exact hperm.mem_iff.mp hidx
          exact hold.symm.mem_iff.mp hrange
      · -- genuine retry pass
        cases hsel : selectRetryTopics st.topic_pairs st.failed_indices with
        | error e =>
          simp only [parallel_workers_node,
            if_pos (And.intro hrc hfail), hsel] at hrun
          cases hrun
        | ok topics =>
          rw [parallel_workers_retry call sched st hrc hfail hsel] at hrun
          cases hrun
          have hold := hpre hrc
          apply merged_outputs_indices_perm hold
          intro x hx
          have hidx : x.index ∈ (sched topics).map Prod.fst := by
            rw [← map_index_eq_fst
              (fun ip => runWorker (call ip.1) ip.1 ip.2 (feedbackFor st ip.1))
              (fun ip : Nat × TopicPair =>
                runWorker_index (call ip.1) ip.1 ip.2 (feedbackFor st ip.1))
              (sched topics)]
            exact List.mem_map_of_mem WorkerOutput.index hx
          obtain ⟨hmapfst, hget⟩ := selectRetryTopics_spec hsel
          have hintopics : x.index ∈ topics.map Prod.fst :=
            ((hsched topics).map Prod.fst).mem_iff.mp hidx
          obtain ⟨ip, hipmem, hipfst⟩ := List.mem_map.mp hintopics
          have hlt : ip.1 < st.topic_pairs.length := by
            have := hget ip hipmem
            exact (List.get?_eq_some.mp this).1
          have hrange : x.index ∈ List.range st.topic_pairs.length := by
            rw [← hipfst]
            exact List.mem_range.mpr hlt
          exact (hpre hrc).symm.mem_iff.mp hrange
    · -- first pass
      have hrc0 : st.retry_count = 0 := by omega
      by_cases hne : st.topic_pairs = []
      · rw [parallel_workers_nil_topics hne (fun hc => hrc hc.1)] at hrun
        cases hrun
      · rw [parallel_workers_rc0 call sched st hrc0 hne] at hrun
        cases hrun
        have h1 : ((sortByIndex ((sched st.topic_pairs.enum).map
            (fun ip => runWorker (call ip.1) ip.1 ip.2 none))).map
              WorkerOutput.index).Perm
            (((sched st.topic_pairs.enum).map
              (fun ip => runWorker (call ip.1) ip.1 ip.2 none)).map
                WorkerOutput.index) :=
          (sortByIndex_perm _).map WorkerOutput.index
        have h2 : ((sched st.topic_pairs.enum).map
            (fun ip => runWorker (call ip.1) ip.1 ip.2 none)).map
              WorkerOutput.index = (sched st.topic_pairs.enum).map Prod.fst :=
          map_index_eq_fst
            (fun ip => runWorker (call ip.1) ip.1 ip.2 none)
            (fun ip : Nat × TopicPair =>
              runWorker_index (call ip.1) ip.1 ip.2 none)
            (sched st.topic_pairs.enum)
        have h3 := (hsched st.topic_pairs.enum).map Prod.fst
        rw [List.enum_map_fst] at h3
        exact h1.trans (h2 ▸ h3)
  · intro idx pair fb e h
    exact runWorker_error_marked idx pair (h 0) (h 1) (h 2)

theorem index_stability_witness :
    (wPWSt.worker_outputs.map WorkerOutput.index).Perm
      (List.range wState1.topic_pairs.length) :=
  (index_stability (wCall 0) (wSched 0) wState1 wPWSt
    (fun l => List.Perm.refl l)
    (fun h => absurd h (by decide))
    rfl).1

/-! ## Claim C6: frame property of a retry pass -/

theorem merged_filter_frame {old : List WorkerOutput}
    (new : List WorkerOutput) (i : Nat)
    (hndold : (old.map WorkerOutput.index).Nodup) :
    (sortByIndex (dictValues (dictUpd WorkerOutput.index
        (dictOf WorkerOutput.index old) new))).filter (fun o => o.index == i) =
      (match new.reverse.find? (fun x => x.index == i) with
       | some x => [x]
       | none => old.filter (fun o => o.index == i)) := by
  have hcoh1 : DictCoh WorkerOutput.index (dictOf WorkerOutput.index old) :=
    DictCoh_dictOf _ _
  have hnd1 : (dictKeys (dictOf WorkerOutput.index old)).Nodup := by
    rw [dictKeys_dictOf hndold]
    exact hndold
  have hcoh2 : DictCoh WorkerOutput.index (dictUpd WorkerOutput.index
      (dictOf WorkerOutput.index old) new) := DictCoh_upd hcoh1
  have hnd2 : (dictKeys (dictUpd WorkerOutput.index
      (dictOf WorkerOutput.index old) new)).Nodup := dictKeys_nodup_upd hnd1
  have hold_filter := dictValues_filter_eq i hnd1 hcoh1
  rw [dictValues_dictOf hndold] at hold_filter
  have hfind2 := dictFind_upd WorkerOutput.index i new
    (dictOf WorkerOutput.index old)
  have hperm := (sortByIndex_perm (dictValues (dictUpd WorkerOutput.index
    (dictOf WorkerOutput.index old) new))).filter (fun o => o.index == i)
  rw [dictValues_filter_eq i hnd2 hcoh2] at hperm
  cases hfind : new.reverse.find? (fun x => x.index == i) with
  | some x =>
    have hfind2' : dictFind i (dictUpd WorkerOutput.index
        (dictOf WorkerOutput.index old) new) = some x := by
      rw [hfind2, hfind]
    rw [hfind2'] at hperm
    exact Perm_eq_of_short hperm (by simp)
  | none =>
    have hfind2' : dictFind i (dictUpd WorkerOutput.index
        (dictOf WorkerOutput.index old) new) =
        dictFind i (dictOf WorkerOutput.index old) := by
      rw [hfind2, hfind]
    rw [hfind2'] at hperm
    rw [hold_filter]
    exact Perm_eq_of_short hperm
      (by cases dictFind i (dictOf WorkerOutput.index old) <;> simp)

/-- C6: frame property of a retry pass — a fan-out generation retry pass
processes only the indices currently in the failed-index set: for every
index not in the failed set the stored worker output after the pass is
identical to the one before it, and every index in the failed set is
overwritten with the fresh regeneration result for exactly that index
(carrying the feedback looked up for that index), for every completion
order. -/
theorem retry_frame
    (call : Nat → Nat → Option String → Except String GenResult)
    (sched : List (Nat × TopicPair) → List (Nat × TopicPair))
    (st st' : WorkflowState)
    (hsched : ∀ l, (sched l).Perm l)
    (hrc : st.retry_count > 0) (hfail : st.failed_indices ≠ [])
    (hndW : (st.worker_outputs.map WorkerOutput.index).Nodup)
    (hndF : st.failed_indices.Nodup)
    (hrun : parallel_workers_node call sched st = .ok st') :
    (∀ i, i ∉ st.failed_indices →
        st'.worker_outputs.filter (fun o => o.index == i) =
          st.worker_outputs.filter (fun o => o.index == i)) ∧
    (∀ i p, i ∈ st.failed_indices → st.topic_pairs.get? i = some p →
        st'.worker_outputs.filter (fun o => o.index == i) =
          [runWorker (call i) i p (feedbackFor st i)]) := by
  cases hsel : selectRetryTopics st.topic_pairs st.failed_indices with
  | error e =>
    simp only [parallel_workers_node, if_pos (And.intro hrc hfail), hsel] at hrun
    cases hrun
  | ok topics =>
    rw [parallel_workers_retry call sched st hrc hfail hsel] at hrun
    cases hrun
    obtain ⟨hmapfst, hget⟩ := selectRetryTopics_spec hsel
    have hnew_idx : (((sched topics).map (fun ip =>
        runWorker (call ip.1) ip.1 ip.2 (feedbackFor st ip.1))).map
          WorkerOutput.index) = (sched topics).map Prod.fst :=
      map_index_eq_fst _
        (fun ip : Nat × TopicPair =>
          runWorker_index (call ip.1) ip.1 ip.2 (feedbackFor st ip.1))
        (sched topics)
    have hnewPerm : (((sched topics).map (fun ip =>
        runWorker (call ip.1) ip.1 ip.2 (feedbackFor st ip.1))).map
          WorkerOutput.index).Perm st.failed_indices := by
      rw [hnew_idx, ← hmapfst]
      exact (hsched topics).map Prod.fst
    have hframe := fun i => merged_filter_frame
      ((sched topics).map (fun ip =>
        runWorker (call ip.1) ip.1 ip.2 (feedbackFor st ip.1)))
      i hndW
    constructor
    · intro i hi
      have hnone : ((sched topics).map (fun ip =>
          runWorker (call ip.1) ip.1 ip.2 (feedbackFor st ip.1))).reverse.find?
            (fun x => x.index == i) = none := by
        rw [List.find?_eq_none]
        intro x hx hbeq
        have hxi : x.index = i := by simpa using hbeq
        have hxmem : x ∈ (sched topics).map (fun ip =>
            runWorker (call ip.1) ip.1 ip.2 (feedbackFor st ip.1)) :=
          List.mem_reverse.mp hx
        have : x.index ∈ st.failed_indices :=
          hnewPerm.mem_iff.mp (List.mem_map_of_mem WorkerOutput.index hxmem)
        exact hi (hxi ▸ this)
      have h := hframe i
      rw [hnone] at h
      exact h
    · intro i p hi hp
      obtain ⟨ip, hipmem, hipfst⟩ :=
        List.mem_map.mp (hmapfst ▸ hi :
          i ∈ topics.map Prod.fst)
      obtain ⟨a, b⟩ := ip
      have ha : a = i := hipfst
      have hb : b = p := by
        have h2 := hget (a, b) hipmem
        simp only [] at h2
        rw [ha, hp] at h2
        exact ((Option.some.injEq _ _).mp h2).symm
      have hmem' : (i, p) ∈ topics := by
        rw [← ha, ← hb]
        exact hipmem
      have hmem_new : runWorker (call i) i p (feedbackFor st i) ∈
          (sched topics).map (fun ip =>
            runWorker (call ip.1) ip.1 ip.2 (feedbackFor st ip.1)) := by
        have hmem_sched : (i, p) ∈ sched topics :=
          (hsched topics).symm.mem_iff.mp hmem'
        exact List.mem_map_of_mem
          (fun ip => runWorker (call ip.1) ip.1 ip.2 (feedbackFor st ip.1))
          hmem_sched
      have hsome : ((sched topics).map (fun ip =>
          runWorker (call ip.1) ip.1 ip.2 (feedbackFor st ip.1))).reverse.find?
            (fun x => x.index == i) =
          some (runWorker (call i) i p (feedbackFor st i)) := by
        apply find?_keyOf_unique
        · rw [List.map_reverse]
          exact (List.nodup_reverse).mpr (hnewPerm.nodup_iff.mpr hndF)
        · exact List.mem_reverse.mpr hmem_new
        · exact runWorker_index (call i) i p (feedbackFor st i)
      have h := hframe i
      rw [hsome] at h
      exact h

theorem retry_frame_witness :
    wRetryPWSt.worker_outputs.filter (fun o => o.index == 0) =
      wRetrySt.worker_outputs.filter (fun o => o.index == 0) ∧
    wRetryPWSt.worker_outputs.filter (fun o => o.index == 1) =
      [runWorker (wCall 1 1) 1 wPairB (feedbackFor wRetrySt 1)] :=
  ⟨(retry_frame (wCall 1) (wSched 1) wRetrySt wRetryPWSt
      (fun l => List.Perm.refl l) (by decide) (by decide) (by decide) (by decide)
      rfl).1 0 (by decide),
   (retry_frame (wCall 1) (wSched 1) wRetrySt wRetryPWSt
      (fun l => List.Perm.refl l) (by decide) (by decide) (by decide) (by decide)
      rfl).2 1 wPairB (by decide) (by decide)⟩

/-! ## Claim C3: the evaluator merge and its error-branch bug -/

/-- C3 (code bug): the claim states that verdicts merge by index with the
latest verdict winning and that after each pass the failed-index set equals
exactly the indices whose latest verdict is failing.  The source's
error-marker branch builds the failing verdict in `eval_result` but stores
the variable `eval_dict`, i.e. the verdict dict constructed for the
*previous* judged output: on a pass over a passing output at index 0
followed by an error-marked output at index 1, the verdict map ends up with
the index-0 passing verdict stored under key 1, `failed_indices = [1]`, yet
no failing verdict exists in the merged list; with the error-marked output
first, the node raises `UnboundLocalError`. -/
theorem evaluator_merge_bug :
    evaluator_node cJudgePass cStateEval = .ok cStateEvalRes ∧
    cStateEvalRes.failed_indices = [1] ∧
    cStateEvalRes.evaluation_results =
      [{ index := 0, passed := true, feedback := none },
       { index := 0, passed := true, feedback := none }] ∧
    cStateEvalRes.evaluation_results.filter (fun e => !e.passed) = [] ∧
    evaluator_node cJudgePass cStateEvalErrFirst = .error .unboundLocal :=
  ⟨rfl, rfl, rfl, rfl, rfl⟩

/-! ## Claim C7: generation failures and run survival -/

/-- C7 (code bug): the fan-out pass itself isolates a failing unit — it
stores an error-marked entry for the failed index — but the run does not
survive: on a run with a single topic whose generation call fails at every
attempt, the evaluator's first loop iteration takes the error branch, where
the source stores the unassigned local `eval_dict`, so the run raises
`UnboundLocalError` instead of completing with a degraded result. -/
theorem generation_failure_halts_run :
    (match parallel_workers_node (cCallFail 0) (wSched 0) wState1 with
     | .ok s => s.worker_outputs
     | .error _ => []) =
      [{ index := 0, topic_pair := none, course_name := "Error",
         course_description := "Error occurred during processing",
         lessons := [], error := some "LLM unavailable" }] ∧
    process_document cOrchOne cCallFail wJudge wSched wExpand wSchedW2
      7 "intro" "body" "end" = .error .unboundLocal :=
  ⟨rfl, rfl⟩

/-! ## Claims C2 and C10: behaviour when a fan-out stage has no work -/

theorem process_document_orch_error (e : String)
    (call : Nat → Nat → Nat → Option String → Except String GenResult)
    (judge : Nat → WorkerOutput → Except String (Bool × Option String))
    (sched : Nat → List (Nat × TopicPair) → List (Nat × TopicPair))
    (expand : WorkerOutput → Nat → LessonIntro → Except String LessonOut)
    (schedW2 : List WorkerOutput → List WorkerOutput)
    (doc_id : Nat) (intro main concl : String) :
    process_document (.error e) call judge sched expand schedW2
      doc_id intro main concl = .error .poolEmpty := rfl

theorem process_document_no_topics (role industry : String)
    (call : Nat → Nat → Nat → Option String → Except String GenResult)
    (judge : Nat → WorkerOutput → Except String (Bool × Option String))
    (sched : Nat → List (Nat × TopicPair) → List (Nat × TopicPair))
    (expand : WorkerOutput → Nat → LessonIntro → Except String LessonOut)
    (schedW2 : List WorkerOutput → List WorkerOutput)
    (doc_id : Nat) (intro main concl : String) :
    process_document
      (.ok { role := role, industry := industry, topic_pairs := [] })
      call judge sched expand schedW2 doc_id intro main concl =
      .error .poolEmpty := rfl

theorem worker2_empty_pool
    (expand : WorkerOutput → Nat → LessonIntro → Except String LessonOut)
    (schedW2 : List WorkerOutput → List WorkerOutput)
    (st : WorkflowState) (h : passedCourses st = []) :
    worker2_node expand schedW2 st = .error .poolEmpty := by
  have hstep : passedCourses
      { st with current_step := "Generating full lesson content" } =
      passedCourses st := rfl
  simp [worker2_node, hstep, h]

/-- C2 (code bug): the claim says a topic-extraction failure is fatal in the
sense that the controller records the error, halts before fan-out
generation, and the entry point returns a result with empty final courses
and a populated error field.  The embedded code does record the error
(second conjunct), but the graph edge into the generation node is
unconditional: the node builds a worker pool over zero units, which raises
`ValueError`, so the entry point raises instead of returning any result
(first conjunct — for every oracle and completion order). -/
theorem extraction_failure_result (e : String)
    (call : Nat → Nat → Nat → Option String → Except String GenResult)
    (judge : Nat → WorkerOutput → Except String (Bool × Option String))
    (sched : Nat → List (Nat × TopicPair) → List (Nat × TopicPair))
    (expand : WorkerOutput → Nat → LessonIntro → Except String LessonOut)
    (schedW2 : List WorkerOutput → List WorkerOutput)
    (doc_id : Nat) (intro main concl : String) :
    process_document (.error e) call judge sched expand schedW2
      doc_id intro main concl = .error .poolEmpty ∧
    (orchestrator_node (.error e) (initialState doc_id intro main concl)).error =
      "Orchestrator error: " ++ e :=
  ⟨process_document_orch_error e call judge sched expand schedW2
      doc_id intro main concl, rfl⟩

/-- C10: when a fan-out stage has no unit of work — topic extraction
returned zero pairs without raising, or every draft is failed or
error-marked at expansion time — the stage constructs a pool with
`max_workers = min(cap, 0) = 0`, which raises, so the top-level entry point
raises instead of returning a result dict; consequently a normal `.ok`
completion requires a non-empty topic list. -/
theorem empty_fanout_raises :
    (∀ expand schedW2 st, passedCourses st = [] →
        worker2_node expand schedW2 st = .error .poolEmpty) ∧
    (∀ role industry call judge sched expand schedW2 doc_id intro main concl,
        process_document
          (.ok { role := role, industry := industry, topic_pairs := [] })
          call judge sched expand schedW2 doc_id intro main concl =
          .error .poolEmpty) ∧
    (∀ orch call judge sched expand schedW2 doc_id intro main concl res,
        process_document orch call judge sched expand schedW2
          doc_id intro main concl = .ok res →
        ∃ o, orch = .ok o ∧ o.topic_pairs ≠ []) := by
  refine ⟨worker2_empty_pool, process_document_no_topics, ?_⟩
  intro orch call judge sched expand schedW2 doc_id intro main concl res h
  cases orch with
  | error e =>
    rw [process_document_orch_error e call judge sched expand schedW2
      doc_id intro main concl] at h
    cases h
  | ok o =>
    obtain ⟨role, industry, tp⟩ := o
    cases tp with
    | nil =>
      rw [process_document_no_topics role industry call judge sched expand
        schedW2 doc_id intro main concl] at h
      cases h
    | cons p ps =>
      exact ⟨{ role := role, industry := industry, topic_pairs := p :: ps },
        rfl, by simp⟩

theorem empty_fanout_raises_witness :
    passedCourses (initialState 7 "intro" "body" "end") = [] ∧
    worker2_node wExpand wSchedW2 (initialState 7 "intro" "body" "end") =
      .error .poolEmpty :=
  ⟨rfl, empty_fanout_raises.1 wExpand wSchedW2
    (initialState 7 "intro" "body" "end") rfl⟩

/-! ## Claim C9: per-lesson degradation in fan-out expansion -/

/-- C9 counterexample: the claim as stated is false on the code.  With a
single lesson whose expansion call fails on attempt 0 but would succeed on
attempts 1 and 2, the claimed per-lesson 3-attempt retry semantics
(`perLessonRetryExpansion`, modelled from the claim wording) fully expands
the lesson, while the code (`generate_full_lessons_with_retry`) emits the
degraded stub: the 3-attempt retry wraps the whole course expansion, and
the per-lesson `try`/`except` swallows the failure before the retry wrapper
can ever see it, so the lesson gets exactly one attempt. -/
theorem lesson_retry_counterexample :
    generate_full_lessons_with_retry cExpandFlaky [cLessonStub] =
      .ok [degradeLesson cLessonStub] ∧
    perLessonRetryExpansion cExpandFlaky [cLessonStub] = [cLessonFull] ∧
    degradeLesson cLessonStub ≠ cLessonFull :=
  ⟨rfl, rfl, by decide⟩

/-- C9 (amended): each lesson's expansion call is attempted once per
course-level attempt, and since every per-lesson failure is caught and
degraded inline, the course-level 3-attempt retry returns after its first
attempt.  A lesson whose single expansion call fails is emitted with its
original stub fields plus empty skill_aims, language_learning_aims and
lesson_summary arrays, while every other lesson of the same course is still
expanded from its own call — the lesson is neither dropped nor does the
course fail. -/
theorem expansion_degrades_per_lesson
    (call : Nat → LessonIntro → Except String LessonOut)
    (lessons : List LessonIntro) :
    generate_full_lessons_with_retry call lessons =
      .ok (lessons.map (fun l =>
        match call 0 l with
        | .ok fl => fl
        | .error _ =>
          { lesson_number := l.lesson_number, lesson_title := l.lesson_title,
            lesson_introduction := l.lesson_introduction, skill_aims := [],
            language_learning_aims := [], lesson_summary := [] })) := rfl

/-! ## Claim C8: segmentation fallback guarantee -/

theorem append_ne_empty_left {a : String} (b : String) (h : a ≠ "") :
    a ++ b ≠ "" := by
  intro hc
  apply h
  have hlen := congrArg String.length hc
  rw [String.length_append] at hlen
  have h0 : a.length = 0 := by
    have hz : ("" : String).length = 0 := rfl
    omega
  cases a with
  | mk data =>
    cases data with
    | nil => rfl
    | cons c cs => simp [String.length] at h0

theorem joinSep_ne_empty (sep : String) {x : String} (xs : List String)
    (hx : x ≠ "") : joinSep sep (x :: xs) ≠ "" := by
  cases xs with
  | nil => exact hx
  | cons y ys =>
    show x ++ sep ++ joinSep sep (y :: ys) ≠ ""
    exact append_ne_empty_left _ (append_ne_empty_left _ hx)

theorem pythonOr_ne_empty (a : String) {b : String} (hb : b ≠ "") :
    pythonOr a b ≠ "" := by
  unfold pythonOr
  split
  · exact hb
  · assumption

theorem merge_field_ne_empty {l : List String} {d : String}
    (hl : ∀ x ∈ l, x ≠ "") (hd : d ≠ "") :
    (if l ≠ [] then joinSep parSep l else d) ≠ "" := by
  split
  · next h =>
    cases l with
    | nil => exact absurd rfl h
    | cons x xs => exact joinSep_ne_empty parSep xs (hl x (List.mem_cons_self _ _))
  · exact hd

theorem merge_chunk_results_ne_empty (rs : List SegResult) :
    (merge_chunk_results rs).introduction ≠ "" ∧
    (merge_chunk_results rs).main_content ≠ "" ∧
    (merge_chunk_results rs).conclusion ≠ "" := by
  refine ⟨?_, ?_, ?_⟩
  · show (if ((rs.filter (fun r =>
        r.introduction != "" && !(r.introduction.startsWith "[PARTIAL]"))).map
          (fun r => r.introduction)) ≠ [] then
        joinSep parSep ((rs.filter (fun r =>
          r.introduction != "" && !(r.introduction.startsWith "[PARTIAL]"))).map
            (fun r => r.introduction))
      else "Document introduction not clearly identified.") ≠ ""
    refine merge_field_ne_empty ?_ (by decide)
    intro x hx
    obtain ⟨r, hr, rfl⟩ := List.mem_map.mp hx
    have hp := (List.mem_filter.mp hr).2
    have := (Bool.and_eq_true _ _).mp hp
    exact bne_iff_ne.mp this.1
  · show (if ((rs.filter (fun r => r.main_content != "")).map
        (fun r => r.main_content)) ≠ [] then
        joinSep parSep ((rs.filter (fun r => r.main_content != "")).map
          (fun r => r.main_content))
      else "Main content processing incomplete.") ≠ ""
    refine merge_field_ne_empty ?_ (by decide)
    intro x hx
    obtain ⟨r, hr, rfl⟩ := List.mem_map.mp hx
    exact bne_iff_ne.mp (List.mem_filter.mp hr).2
  · show (if ((rs.filter (fun r =>
        r.conclusion != "" && !(r.conclusion.startsWith "[PARTIAL]"))).map
          (fun r => r.conclusion)) ≠ [] then
        joinSep parSep ((rs.filter (fun r =>
          r.conclusion != "" && !(r.conclusion.startsWith "[PARTIAL]"))).map
            (fun r => r.conclusion))
      else "Document conclusion not clearly identified.") ≠ ""
    refine merge_field_ne_empty ?_ (by decide)
    intro x hx
    obtain ⟨r, hr, rfl⟩ := List.mem_map.mp hx
    have hp := (List.mem_filter.mp hr).2
    have := (Bool.and_eq_true _ _).mp hp
    exact bne_iff_ne.mp this.1

/-- C8: segmentation fallback guarantee — for every chunk with at least 4
paragraphs, when every upstream extraction call has failed the heuristic
fallback splits the chunk's paragraphs positionally (first quarter as
introduction, middle half as main content, last quarter as conclusion,
with a deterministic placeholder substituted for a slice that joins to the
empty string), all three returned fields are non-empty, and the multi-chunk
merge likewise never returns an empty introduction, main_content or
conclusion (placeholders replace categories that yield nothing). -/
theorem segmentation_fallback (content : String) (ci : Nat)
    (h4 : 4 ≤ (splitParagraphs content).length) :
    (create_fallback_response content ci =
      { introduction :=
          pythonOr (joinSep parSep ((splitParagraphs content).take
              ((splitParagraphs content).length / 4)))
            ("[Fallback] Introduction from chunk " ++ toString (ci + 1)),
        main_content :=
          pythonOr (joinSep parSep (((splitParagraphs content).drop
              ((splitParagraphs content).length / 4)).take
              ((splitParagraphs content).length * 3 / 4 -
                (splitParagraphs content).length / 4)))
            ("[Fallback] Main content from chunk " ++ toString (ci + 1)),
        conclusion :=
          pythonOr (joinSep parSep ((splitParagraphs content).drop
              ((splitParagraphs content).length * 3 / 4)))
            ("[Fallback] Conclusion from chunk " ++ toString (ci + 1)) }) ∧
    ((create_fallback_response content ci).introduction ≠ "" ∧
     (create_fallback_response content ci).main_content ≠ "" ∧
     (create_fallback_response content ci).conclusion ≠ "") ∧
    (∀ rs, (merge_chunk_results rs).introduction ≠ "" ∧
           (merge_chunk_results rs).main_content ≠ "" ∧
           (merge_chunk_results rs).conclusion ≠ "") := by
  have hph1 : ("[Fallback] Introduction from chunk " ++ toString (ci + 1)) ≠ "" :=
    append_ne_empty_left _ (by decide)
  have hph2 : ("[Fallback] Main content from chunk " ++ toString (ci + 1)) ≠ "" :=
    append_ne_empty_left _ (by decide)
  have hph3 : ("[Fallback] Conclusion from chunk " ++ toString (ci + 1)) ≠ "" :=
    append_ne_empty_left _ (by decide)
  have hn3 : ¬ (splitParagraphs content).length ≤ 3 := by omega
  have hmax : max 1 ((splitParagraphs content).length / 4) =
      (splitParagraphs content).length / 4 := by
    have : 1 ≤ (splitParagraphs content).length / 4 :=
      (Nat.one_le_div_iff (by norm_num)).mpr (by omega)
    omega
  have hmin : min ((splitParagraphs content).length - 1)
      ((splitParagraphs content).length * 3 / 4) =
      (splitParagraphs content).length * 3 / 4 := by
    have h1 : (splitParagraphs content).length * 3 ≤
        4 * ((splitParagraphs content).length - 1) := by omega
    have h2 : (splitParagraphs content).length * 3 / 4 ≤
        4 * ((splitParagraphs content).length - 1) / 4 :=
      Nat.div_le_div_right h1
    rw [Nat.mul_div_cancel_left _ (by norm_num : 0 < 4)] at h2
    omega
  have heq : create_fallback_response content ci =
      { introduction :=
          pythonOr (joinSep parSep ((splitParagraphs content).take
              ((splitParagraphs content).length / 4)))
            ("[Fallback] Introduction from chunk " ++ toString (ci + 1)),
        main_content :=
          pythonOr (joinSep parSep (((splitParagraphs content).drop
              ((splitParagraphs content).length / 4)).take
              ((splitParagraphs content).length * 3 / 4 -
                (splitParagraphs content).length / 4)))
            ("[Fallback] Main content from chunk " ++ toString (ci + 1)),
        conclusion :=
          pythonOr (joinSep parSep ((splitParagraphs content).drop
              ((splitParagraphs content).length * 3 / 4)))
            ("[Fallback] Conclusion from chunk " ++ toString (ci + 1)) } := by
    simp only [create_fallback_response]
    rw [if_neg hn3, hmax, hmin]
  refine ⟨heq, ⟨?_, ?_, ?_⟩, merge_chunk_results_ne_empty⟩
  · rw [heq]
    exact pythonOr_ne_empty _ hph1
  · rw [heq]
    exact pythonOr_ne_empty _ hph2
  · rw [heq]
    exact pythonOr_ne_empty _ hph3

theorem segmentation_fallback_witness :
    4 ≤ (splitParagraphs cSegContent).length ∧
    ((create_fallback_response cSegContent 0).introduction ≠ "" ∧
     (create_fallback_response cSegContent 0).main_content ≠ "" ∧
     (create_fallback_response cSegContent 0).conclusion ≠ "") ∧
    (merge_chunk_results []).introduction ≠ "" :=
  ⟨by decide, (segmentation_fallback cSegContent 0 (by decide)).2.1,
   ((segmentation_fallback cSegContent 0 (by decide)).2.2 []).1⟩
